import Mathlib

/-!
Verification of the `TextEmbed` inline-widget embedding engine.

Shallow embedding of the `TextEmbed` widget from `toot/tui/widgets.py`:
the placeholder formatter (`_format` / `_FormatWidget.__format__`), the
line-wrap reconciler (`render`) and the split-placeholder tail handler
(`_embed`).

Modelling conventions:
* A terminal cell is a `Char`; a single-row canvas is a `List Cell`; a
  multi-row canvas is a `List Canvas` (one entry per row). Display
  attributes and the focus flag carried alongside canvases do not affect
  cell content and are not modelled (the `focus` parameters are kept for
  shape). All characters are taken to occupy one display column, so
  `urwid.Text(s).pack()` yields the length of `s`.
* The external urwid collaborators (`CanvasJoin`, `CompositeCanvas.trim`,
  `pad_trim_left_right`, `urwid.Text(...).render`) are not part of this
  repository; they are modelled from the spec's boundary contracts.
* Python exceptions are modelled by `Except` / error-reporting results:
  the `ValueError` raised by `_FormatWidget.__format__` is `FmtError`,
  the `StopIteration` escaping `next(widgets_iter)` and the `ValueError`
  raised by unpacking a failed `_placeholder_tail.split` are `EmbedError`.
-/

namespace TootWidgets

/-- One terminal display cell (attributes are not modelled). -/
abbrev Cell := Char

/-- The blank cell used for padding. -/
def blank : Cell := ' '

/-- A single-row rendered surface: one cell per display column. -/
abbrev Canvas := List Cell

/-- An embeddable widget: urwid's render contract `render((cols, rows))
-> canvas`. `TextEmbed` always invokes it at `(maxcols, 1)`. -/
structure Widget where
  render : Nat × Nat → Canvas

/-- The head marker byte `"\x00"` inserted by `_FormatWidget.__format__`. -/
def headChar : Char := Char.ofNat 0

/-- The continuation marker byte `"\x01"` inserted by
`_FormatWidget.__format__`. -/
def contChar : Char := Char.ofNat 1

/-- The placeholder sequence `"\x00" + "\x01" * (maxcols - 1)` returned by
`_FormatWidget.__format__` for a declared width `w`. -/
def headRun (w : Nat) : List Char :=
  headChar :: List.replicate (w - 1) contChar

/-- A run of `k` continuation marker bytes (the part of a split placeholder
carried onto the next line). -/
def contRun (k : Nat) : List Char :=
  List.replicate k contChar

/-- Modelled from the spec: the external canvas horizontal-join primitive
(`urwid.CanvasJoin`). Each entry occupies exactly its allotted `cols`
columns: a wider canvas is trimmed on the right
(`pad_trim_left_right(0, cols - canv.cols())` with a negative value), a
narrower one is padded on the right with blanks. -/
def fitCols (cols : Nat) (c : Canvas) : Canvas :=
  c.take cols ++ List.replicate (cols - c.length) blank

/-- Modelled from the spec: `urwid.CanvasJoin` on a list of
`(canvas, cols)` entries (the attr and focus slots do not affect cell
content), producing one row. -/
def canvasJoin (entries : List (Canvas × Int)) : Canvas :=
  (entries.map fun e => fitCols e.2.toNat e.1).flatten

/-- Modelled from the spec: `CompositeCanvas.pad_trim_left_right`; a
positive amount pads with blank columns, a negative amount trims columns,
on the corresponding side. -/
def padTrimLeftRight (l r : Int) (c : Canvas) : Canvas :=
  let c1 := if 0 ≤ l then List.replicate l.toNat blank ++ c else c.drop (-l).toNat
  if 0 ≤ r then c1 ++ List.replicate r.toNat blank else c1.take (c1.length - (-r).toNat)

/-- Modelled from the spec: `urwid.Text(s).render((cols,))` for a
single-line string — one cell per character. -/
def textCanvas (s : List Char) : Canvas := s

/-- Modelled from the spec: `CompositeCanvas(text_canv).trim(top, n)` —
the contiguous block of `n` rows starting at row `top` of the plain-text
canvas. -/
def trimRows (textCanv : List Canvas) (top n : Nat) : List Canvas :=
  (textCanv.drop top).take n

/-- The error raised at format time by `_FormatWidget.__format__`
(a Python `ValueError`; the spec calls it `FormatError`):
`invalidWidth i` models `"Invalid widget 'maxcols' in replacement field i"`
where `i = len(self._widget_list)` at raise time, and `missingField`
models the lookup error `str.format` raises for an out-of-range field. -/
inductive FmtError
  | invalidWidth (index : Nat)
  | missingField (idx : Nat)
  deriving DecidableEq

/-- The errors escaping `TextEmbed._embed` at render time:
`layoutError` models the `StopIteration` raised by `next(widgets_iter)`
when the embedding-records iterator is exhausted at a marker run (the
spec calls this `LayoutError`); `tailSplitError` models the `ValueError`
raised by the 4-way unpacking of `_placeholder_tail.split(line)` when the
regex `^( *)(\x01+)` does not match (empty continuation run). -/
inductive EmbedError
  | layoutError
  | tailSplitError
  deriving DecidableEq

/-- One piece of a template string, as consumed by `str.format`: a literal
run, or a replacement field `{ref:spec}`. Named and positional references
both resolve to one supplied widget; both are modelled as an index into
the list of supplied widgets. -/
inductive TmplItem
  | lit (s : List Char)
  | field (idx : Nat) (spec : List Char)
  deriving DecidableEq

/-- Python's `int(spec)` on a format-spec string: an optional sign
followed by one or more decimal digits (Python's tolerance for
surrounding whitespace and underscores is not modelled). -/
def digitsVal? : List Char → Option Nat
  | [] => none
  | cs => if cs.all Char.isDigit
          then some (cs.foldl (fun a c => a * 10 + (c.toNat - 48)) 0)
          else none

/-- Python `int(spec)` returning `none` where Python raises `ValueError`. -/
def pyInt? : List Char → Option Int
  | '-' :: rest => (digitsVal? rest).map (fun n => -(n : Int))
  | '+' :: rest => (digitsVal? rest).map (fun n => (n : Int))
  | s => (digitsVal? s).map (fun n => (n : Int))

/-- The width-spec validity test of `_FormatWidget.__format__`:
`int(spec)` succeeds and the result is positive
(`maxcols = int(spec); assert maxcols > 0`). -/
def specOk (s : List Char) : Bool :=
  match pyInt? s with
  | some n => decide (0 < n)
  | none => false

/-- The width a valid spec declares. -/
def specWidth (s : List Char) : Nat :=
  ((pyInt? s).getD 0).toNat

namespace TextEmbed

/-- Model of `TextEmbed._format` together with `_FormatWidget.__format__`:
walk the template left to right (the order `str.format` resolves
replacement fields); at each field look up the widget, parse the spec
with `int`, require it positive, append the `(maxcols, widget)` record
to the growing list and emit `"\x00" + "\x01" * (maxcols - 1)`; on an
invalid spec fail with the count of records appended so far
(`len(self._widget_list)`). -/
def formatGo (args : List Widget) :
    List TmplItem → List (Nat × Widget) →
    Except FmtError (List Char × List (Nat × Widget))
  | [], ws => .ok ([], ws)
  | .lit s :: items, ws =>
    match formatGo args items ws with
    | .ok (out, ws') => .ok (s ++ out, ws')
    | .error e => .error e
  | .field idx spec :: items, ws =>
    match args[idx]? with
    | none => .error (.missingField idx)
    | some w =>
      match pyInt? spec with
      | some n =>
        if 0 < n then
          match formatGo args items (ws ++ [(n.toNat, w)]) with
          | .ok (out, ws') => .ok (headRun n.toNat ++ out, ws')
          | .error e => .error e
        else .error (.invalidWidth ws.length)
      | none => .error (.invalidWidth ws.length)

/-- Model of `TextEmbed._format(text, *args)`: returns the substituted text and
the ordered embedding-records list. -/
def format (text : List TmplItem) (args : List Widget) :
    Except FmtError (List Char × List (Nat × Widget)) :=
  formatGo args text []

end TextEmbed

/-- Model of `TextEmbed._placeholder.split(line)` followed by the loop's skipping
of empty strings and its `fullmatch` test: the line decomposed into
maximal tokens, each tagged `true` when it is a placeholder run matching
`\x00\x01*` (a head byte and the continuation bytes following it) and
`false` when it is a literal text run (which may contain stray `\x01`
bytes, since the pattern only matches runs starting with `\x00`).
`splitStep` prepends one character to the decomposition of the rest of
the line: a head byte starts a placeholder run, absorbing the
continuation bytes that lead the following text run; any other character
joins (or starts) a text run. -/
def splitStep (c : Char) (rest : List (Bool × List Char)) : List (Bool × List Char) :=
  if c = headChar then
    match rest with
    | (false, s) :: more =>
      let run := s.takeWhile (· = contChar)
      let after := s.dropWhile (· = contChar)
      if after = [] then (true, c :: run) :: more
      else (true, c :: run) :: (false, after) :: more
    | _ => (true, [c]) :: rest
  else
    match rest with
    | (false, s) :: more => (false, c :: s) :: more
    | _ => (false, [c]) :: rest

def splitPlaceholders : List Char → List (Bool × List Char)
  | [] => []
  | c :: cs => splitStep c (splitPlaceholders cs)

/-- Number of placeholder runs (`\x00\x01*` matches) on a line. -/
def markerCount (line : List Char) : Nat :=
  ((splitPlaceholders line).filter (fun t => t.1)).length

/-- Model of `TextEmbed._placeholder_tail.split(line)` for the regex
`^( *)(\x01+)`: when the line, after a leading run of spaces, starts with
at least one continuation byte, return
`(padding, continuation run, rest of line)`; otherwise the regex does not
match, `re.split` returns the whole line as a single element, and the
4-way unpacking in `_embed` raises (`none`). -/
def placeholderTailSplit (line : List Char) : Option (List Char × List Char × List Char) :=
  let padding := line.takeWhile (· = ' ')
  let afterPad := line.dropWhile (· = ' ')
  let tailStr := afterPad.takeWhile (· = contChar)
  if tailStr = [] then none
  else some (padding, tailStr, afterPad.dropWhile (· = contChar))

/-- A Tail Descriptor `(remaining columns, already-rendered widget
canvas)` carried across a line boundary. The count is an `Int` because
the Python code computes it by unchecked subtraction. -/
abbrev Tail := Int × Canvas

namespace TextEmbed

/-- The main loop of `TextEmbed._embed` over the pieces of
`placeholder.split(line)`: a placeholder run takes the next embedding
record (`next(widgets_iter)`, failing when exhausted), renders its widget
at `(maxcols, 1)`, allots the run's on-line length of columns, and sets a
Tail Descriptor when the run is shorter than the declared width; a text
run is rendered as plain text at its packed width. -/
def embedLoop (focus : Bool) :
    List (Bool × List Char) → List (Nat × Widget) → List (Canvas × Int) → Option Tail →
    Except EmbedError (Canvas × Option Tail × List (Nat × Widget))
  | [], cursor, canvases, tail => .ok (canvasJoin canvases, tail, cursor)
  | (true, s) :: toks, cursor, canvases, tail =>
    match cursor with
    | [] => .error .layoutError
    | (maxcols, w) :: cursor' =>
      let canv := w.render (maxcols, 1)
      let tail' := if s.length ≠ maxcols then some (((maxcols : Int) - s.length, canv) : Tail) else tail
      embedLoop focus toks cursor' (canvases ++ [(canv, (s.length : Int))]) tail'
  | (false, s) :: toks, cursor, canvases, tail =>
    embedLoop focus toks cursor (canvases ++ [(textCanvas s, (s.length : Int))]) tail

/-- Model of `TextEmbed._embed(line, widgets, focus, tail)`. Returns the joined
sub-canvas for the line, the new Tail Descriptor (or `none`), and the
remaining embedding records (the consumed iterator is shared with the
caller, so the updated cursor is returned explicitly). -/
def embed (line : List Char) (cursor : List (Nat × Widget)) (focus : Bool)
    (tail : Option Tail) :
    Except EmbedError (Canvas × Option Tail × List (Nat × Widget)) :=
  match tail with
  | none => embedLoop focus (splitPlaceholders line) cursor [] none
  | some (cols, tailCanv) =>
    match placeholderTailSplit line with
    | none => .error .tailSplitError
    | some (padding, tailString, rest) =>
      let padEntries : List (Canvas × Int) :=
        if padding = [] then [] else [(textCanvas padding, (padding.length : Int))]
      let canv := padTrimLeftRight (cols - (tailCanv.length : Int))
        ((tailString.length : Int) - cols) tailCanv
      let entries := padEntries ++ [(canv, cols)]
      if rest = [] then
        .ok (canvasJoin entries,
             if (tailString.length : Int) < cols
             then some ((cols - tailString.length, tailCanv) : Tail) else none,
             cursor)
      else
        embedLoop focus (splitPlaceholders rest) cursor entries none

/-- Model of `placeholder.search(line)`: it succeeds exactly when the line contains a
head marker byte. -/
def hasHead (line : List Char) : Bool :=
  line.contains headChar

/-- The loop of `TextEmbed.render` over the decoded lines of the wrapped
text canvas: placeholder-free lines (with no pending tail) are batched
and flushed as one trimmed region of the original text canvas; a line
with a placeholder (or a pending tail, taken unconditionally by the inner
`while tail` loop) goes through `_embed`. When the lines run out, any
pending tail is dropped (`StopIteration` breaks the inner loop) and the
last pure-text batch is flushed. -/
def renderLoop (textCanv : List Canvas) (focus : Bool) :
    List (List Char) → Nat → Nat → Option Tail → List (Nat × Widget) → List Canvas →
    Except EmbedError (List Canvas)
  | [], top, nLines, _tail, _cursor, acc => .ok (acc ++ trimRows textCanv top nLines)
  | line :: rest, top, nLines, some t, cursor, acc =>
    match embed line cursor focus (some t) with
    | .error e => .error e
    | .ok (canv, tail', cursor') =>
      renderLoop textCanv focus rest (top + 1) nLines tail' cursor' (acc ++ [canv])
  | line :: rest, top, nLines, none, cursor, acc =>
    if hasHead line then
      match embed line cursor focus none with
      | .error e => .error e
      | .ok (canv, tail', cursor') =>
        renderLoop textCanv focus rest (top + nLines + 1) 0 tail' cursor'
          (acc ++ trimRows textCanv top nLines ++ [canv])
    else
      renderLoop textCanv focus rest top (nLines + 1) none cursor acc

/-- Model of `TextEmbed.render(size, focus)`, given the wrapped plain-text canvas
produced by the external layout engine (`super().render(size)`) as its
rows `textCanv` and decoded lines `lines`. The final
`urwid.CanvasCombine` stacks the accumulated per-line canvases, so the
result is the list of output rows. -/
def render (textCanv : List Canvas) (lines : List (List Char))
    (widgets : List (Nat × Widget)) (focus : Bool) :
    Except EmbedError (List Canvas) :=
  renderLoop textCanv focus lines 0 0 none widgets []

end TextEmbed

/-- The persistent state of a `TextEmbed` instance: `text` is
`self._text` (the raw template), `widgets` is `self._widgets` (the
ordered embedding records), `wtext` is the substituted text held by the
wrapped `urwid.Text` widget `self._w`. -/
structure TextEmbedState where
  text : List TmplItem
  widgets : List (Nat × Widget)
  wtext : List Char

namespace TextEmbed

/-- Model of `TextEmbed.set_text(text, *args)`: first assigns `self._text = text`,
then runs the fallible `_format`; only on success are `self._widgets` and
the wrapped widget's text updated. The returned pair is the state after
the call together with the raised error, if any. -/
def set_text (s : TextEmbedState) (text : List TmplItem) (args : List Widget) :
    TextEmbedState × Option FmtError :=
  let s1 : TextEmbedState := { s with text := text }
  match format text args with
  | .ok (newText, ws) => ({ s1 with widgets := ws, wtext := newText }, none)
  | .error e => (s1, some e)

/-- Model of `TextEmbed.render` as a state transition: the method reads
`self._widgets` (through a fresh local iterator) and assigns no
attribute, so the state after the call is the state before it. -/
def renderState (s : TextEmbedState) (textCanv : List Canvas)
    (lines : List (List Char)) (focus : Bool) :
    Except EmbedError (List Canvas) × TextEmbedState :=
  (render textCanv lines s.widgets focus, s)

end TextEmbed

/-- A concrete widget used to instantiate hypotheses: renders as a block
of `'X'` cells of the requested size. -/
def sampleWidget : Widget :=
  ⟨fun sz => List.replicate sz.1 'X'⟩

/-- The ordered `(ref, spec)` pairs of the replacement fields of a
template, in the left-to-right order `str.format` resolves them. -/
def fieldOccurrences (items : List TmplItem) : List (Nat × List Char) :=
  items.filterMap fun it =>
    match it with
    | .field i s => some (i, s)
    | .lit _ => none

/-- The substituted text `_format` produces: literal runs verbatim, each
replacement field replaced by the placeholder sequence of its declared
width. -/
def outOf (items : List TmplItem) : List Char :=
  (items.map fun it =>
    match it with
    | .lit s => s
    | .field _ spec => headRun (specWidth spec)).flatten

/-- The embedding-records list `_format` produces: one
`(declared width, widget)` record per replacement field, in resolution
order. -/
def recsOf (args : List Widget) (items : List TmplItem) : List (Nat × Widget) :=
  (fieldOccurrences items).map fun p => (specWidth p.2, args.getD p.1 ⟨fun _ => []⟩)

/-! ## Helper lemmas -/

theorem length_headRun (a : Nat) (h : 0 < a) : (headRun a).length = a := by
  simp [headRun]
  omega

theorem takeWhile_replicate_cont (k : Nat) :
    (List.replicate k contChar).takeWhile (· = contChar) = List.replicate k contChar := by
  induction k with
  | zero => rfl
  | succ n ih => simp [List.replicate, List.takeWhile, ih]

theorem dropWhile_replicate_cont (k : Nat) :
    (List.replicate k contChar).dropWhile (· = contChar) = [] := by
  induction k with
  | zero => rfl
  | succ n ih => simp [List.replicate, List.dropWhile, ih]

theorem splitPlaceholders_text (s : List Char) (hne : s ≠ [])
    (h : ∀ c ∈ s, c ≠ headChar) : splitPlaceholders s = [(false, s)] := by
  induction s with
  | nil => exact absurd rfl hne
  | cons c cs ih =>
    have hc : c ≠ headChar := h c (List.mem_cons_self c cs)
    cases cs with
    | nil => simp [splitPlaceholders, splitStep, hc]
    | cons d ds =>
      have hrest : splitPlaceholders (d :: ds) = [(false, d :: ds)] :=
        ih (by simp) (fun x hx => h x (List.mem_cons_of_mem c hx))
      rw [splitPlaceholders, hrest]
      simp [splitStep, hc]

theorem splitPlaceholders_contRun (k : Nat) (h : 0 < k) :
    splitPlaceholders (contRun k) = [(false, contRun k)] := by
  apply splitPlaceholders_text
  · simp [contRun]; omega
  · intro c hc
    have : c = contChar := List.eq_of_mem_replicate hc
    subst this
    decide

theorem splitPlaceholders_headRun (a : Nat) :
    splitPlaceholders (headRun a) = [(true, headRun a)] := by
  unfold headRun
  cases hk : a - 1 with
  | zero => simp [splitPlaceholders, splitStep]
  | succ n =>
    have h1 : splitPlaceholders (List.replicate (n + 1) contChar) =
        [(false, List.replicate (n + 1) contChar)] := by
      have := splitPlaceholders_contRun (n + 1) (Nat.succ_pos n)
      simpa [contRun] using this
    rw [splitPlaceholders, h1]
    simp [splitStep, takeWhile_replicate_cont, dropWhile_replicate_cont]

theorem takeWhile_space_contRun (k : Nat) (h : 0 < k) :
    (contRun k).takeWhile (· = ' ') = [] := by
  cases k with
  | zero => omega
  | succ n => simp [contRun, List.replicate, List.takeWhile, contChar]

theorem dropWhile_space_contRun (k : Nat) (h : 0 < k) :
    (contRun k).dropWhile (· = ' ') = contRun k := by
  cases k with
  | zero => omega
  | succ n => simp [contRun, List.replicate, List.dropWhile, contChar]

namespace TextEmbed

theorem embedLoop_ok (focus : Bool) :
    ∀ (toks : List (Bool × List Char)) (cursor : List (Nat × Widget))
      (canvases : List (Canvas × Int)) (tl : Option Tail),
      (toks.filter fun p => p.1).length ≤ cursor.length →
      ∃ c t, embedLoop focus toks cursor canvases tl =
        .ok (c, t, cursor.drop (toks.filter fun p => p.1).length) := by
  intro toks
  induction toks with
  | nil =>
    intro cursor canvases tl _
    exact ⟨canvasJoin canvases, tl, rfl⟩
  | cons tok toks ih =>
    intro cursor canvases tl hle
    obtain ⟨b, s⟩ := tok
    cases b with
    | false =>
      rw [embedLoop]
      simpa using ih cursor (canvases ++ [(textCanvas s, (s.length : Int))]) tl
        (by simpa using hle)
    | true =>
      cases cursor with
      | nil => simp at hle
      | cons rec cursor' =>
        obtain ⟨maxcols, w⟩ := rec
        rw [embedLoop]
        have hle' : (toks.filter fun p => p.1).length ≤ cursor'.length := by
          simpa using hle
        simpa using ih cursor'
          (canvases ++ [(w.render (maxcols, 1), (s.length : Int))])
          (if s.length ≠ maxcols
           then some (((maxcols : Int) - s.length, w.render (maxcols, 1)) : Tail) else tl)
          hle'

theorem embedLoop_err (focus : Bool) :
    ∀ (toks : List (Bool × List Char)) (cursor : List (Nat × Widget))
      (canvases : List (Canvas × Int)) (tl : Option Tail),
      cursor.length < (toks.filter fun p => p.1).length →
      embedLoop focus toks cursor canvases tl = .error .layoutError := by
  intro toks
  induction toks with
  | nil => intro cursor canvases tl h; simp at h
  | cons tok toks ih =>
    intro cursor canvases tl h
    obtain ⟨b, s⟩ := tok
    cases b with
    | false =>
      rw [embedLoop]
      exact ih cursor (canvases ++ [(textCanvas s, (s.length : Int))]) tl (by simpa using h)
    | true =>
      cases cursor with
      | nil => rw [embedLoop]
      | cons rec cursor' =>
        obtain ⟨maxcols, w⟩ := rec
        rw [embedLoop]
        exact ih cursor' _ _ (by simp at h ⊢; omega)

/-- If the records iterator is exhausted while a marker run remains,
`_embed` fails (the code's `next(widgets_iter)` raises). -/
theorem embed_layoutError (line : List Char) (cursor : List (Nat × Widget))
    (focus : Bool) (h : cursor.length < markerCount line) :
    embed line cursor focus none = .error .layoutError := by
  rw [embed]
  exact embedLoop_err focus _ _ _ _ h

/-- With enough records, `_embed` on a fresh line succeeds and consumes
exactly one record per marker run, in order. -/
theorem embed_ok_drop (line : List Char) (cursor : List (Nat × Widget))
    (focus : Bool) (h : markerCount line ≤ cursor.length) :
    ∃ c t, embed line cursor focus none = .ok (c, t, cursor.drop (markerCount line)) := by
  rw [embed]
  exact embedLoop_ok focus _ _ _ _ h

/-- Evaluation of `_embed` on a line that is exactly the leading part of a placeholder
of declared width `w`: the head record is consumed, its widget rendered
at `(w, 1)`, the run's `a` on-line columns allotted, and a Tail
Descriptor produced when the run is shorter than `w`. -/
theorem embed_headRun (a w : Nat) (wid : Widget) (cs : List (Nat × Widget))
    (focus : Bool) (ha : 0 < a) :
    embed (headRun a) ((w, wid) :: cs) focus none =
      .ok (fitCols a (wid.render (w, 1)),
           if a = w then none
           else some (((w : Int) - a, wid.render (w, 1)) : Tail),
           cs) := by
  rw [embed, splitPlaceholders_headRun]
  rw [embedLoop, embedLoop]
  simp [canvasJoin, length_headRun a ha, ite_not]

/-- Evaluation of `_embed` on a line that is exactly a continuation run of `k` bytes
with an active tail: the stored canvas is trimmed to the run, the cursor
is untouched, and the tail survives only if the run is shorter than the
remaining width. -/
theorem embed_contRun_tail (k : Nat) (cols : Int) (cv : Canvas)
    (cursor : List (Nat × Widget)) (focus : Bool) (hk : 0 < k) :
    embed (contRun k) cursor focus (some (cols, cv)) =
      .ok (fitCols cols.toNat
             (padTrimLeftRight (cols - (cv.length : Int)) ((k : Int) - cols) cv),
           if (k : Int) < cols then some ((cols - (k : Int), cv) : Tail) else none,
           cursor) := by
  rw [embed]
  rw [placeholderTailSplit]
  simp only [takeWhile_space_contRun k hk, dropWhile_space_contRun k hk]
  have h1 : (contRun k).takeWhile (· = contChar) = contRun k := by
    simp [contRun, takeWhile_replicate_cont k]
  have h2 : (contRun k).dropWhile (· = contChar) = [] := by
    simp [contRun, dropWhile_replicate_cont k]
  rw [h1, h2]
  have hne : contRun k ≠ [] := by simp [contRun]; omega
  have hlen : (contRun k).length = k := by simp [contRun]
  simp [hne, hlen, canvasJoin]

/-- First half of a split placeholder: the line ends with the leading
`a` columns of a width-`w` placeholder. The widget is rendered at the
full declared width and only its leading `a` columns are emitted. -/
theorem embed_split_first (a w : Nat) (wid : Widget) (focus : Bool)
    (ha : 0 < a) (haw : a < w) (hr : (wid.render (w, 1)).length = w) :
    embed (headRun a) [(w, wid)] focus none =
      .ok ((wid.render (w, 1)).take a,
           some (((w : Int) - a, wid.render (w, 1)) : Tail), []) := by
  rw [embed_headRun a w wid [] focus ha]
  have hfit : fitCols a (wid.render (w, 1)) = (wid.render (w, 1)).take a := by
    simp [fitCols, hr, Nat.sub_eq_zero_of_le (le_of_lt haw)]
  rw [hfit, if_neg (Nat.ne_of_lt haw)]

/-- Second half of a split placeholder: the next line starts with the
remaining `w - a` continuation bytes. The already-rendered canvas is
trimmed to its trailing `w - a` columns, the tail is cleared, and no
record is consumed. -/
theorem embed_split_second (a w : Nat) (cv : Canvas)
    (cursor : List (Nat × Widget)) (focus : Bool)
    (ha : 0 < a) (haw : a < w) (hl : cv.length = w) :
    embed (contRun (w - a)) cursor focus (some (((w : Int) - a, cv) : Tail)) =
      .ok (cv.drop a, none, cursor) := by
  have hcast : ((w : Int) - a) = ((w - a : Nat) : Int) := by omega
  rw [hcast, embed_contRun_tail (w - a) ((w - a : Nat) : Int) cv cursor focus (by omega)]
  have h1 : (((w - a : Nat) : Int)).toNat = w - a := Int.toNat_natCast _
  have h2 : ((w - a : Nat) : Int) - (cv.length : Int) = -(a : Int) := by
    rw [hl]; omega
  have h3 : ((w - a : Nat) : Int) - ((w - a : Nat) : Int) = 0 := by omega
  have h4 : padTrimLeftRight (-(a : Int)) 0 cv = cv.drop a := by
    simp [padTrimLeftRight, not_le.mpr (by exact_mod_cast ha : (0 : Int) < a)]
  have h5 : fitCols (w - a) (cv.drop a) = cv.drop a := by
    simp [fitCols, List.take_of_length_le, hl]
  rw [h1, h2, h3, h4, h5]
  simp

end TextEmbed

namespace TextEmbed

theorem hasHead_headRun (a : Nat) : hasHead (headRun a) = true := by
  simp [hasHead, headRun, List.contains]

/-- A batch of placeholder-free lines is deferred and flushed as one
trimmed region of the plain-text canvas. -/
theorem renderLoop_noHead (textCanv : List Canvas) (focus : Bool) :
    ∀ (lines : List (List Char)), (∀ l ∈ lines, hasHead l = false) →
    ∀ (top nLines : Nat) (cursor : List (Nat × Widget)) (acc : List Canvas),
      renderLoop textCanv focus lines top nLines none cursor acc =
        .ok (acc ++ trimRows textCanv top (nLines + lines.length)) := by
  intro lines
  induction lines with
  | nil => intro _ top nLines cursor acc; simp [renderLoop]
  | cons line rest ih =>
    intro h top nLines cursor acc
    have hline : hasHead line = false := h line (List.mem_cons_self line rest)
    rw [renderLoop, hline]
    have := ih (fun l hl => h l (List.mem_cons_of_mem line hl)) top (nLines + 1) cursor acc
    rw [if_neg (by simp)]
    rw [this]
    have : nLines + 1 + rest.length = nLines + (rest.length + 1) := by omega
    simp [this]

/-- A pending tail at line exhaustion is dropped: the `StopIteration`
breaks the inner loop and the canvases accumulated so far are combined
(no pure-text batch is pending in that state). -/
theorem renderLoop_nil_tail (textCanv : List Canvas) (focus : Bool)
    (top : Nat) (t : Tail) (cursor : List (Nat × Widget)) (acc : List Canvas) :
    renderLoop textCanv focus [] top 0 (some t) cursor acc = .ok acc := by
  simp [renderLoop, trimRows]

end TextEmbed

theorem specOk_elim {s : List Char} (h : specOk s = true) :
    ∃ n : Int, pyInt? s = some n ∧ 0 < n ∧ specWidth s = n.toNat := by
  unfold specOk at h
  cases hp : pyInt? s with
  | none => rw [hp] at h; simp at h
  | some n =>
    rw [hp] at h
    simp only [decide_eq_true_eq] at h
    exact ⟨n, rfl, h, by simp [specWidth, hp]⟩

theorem specOk_false_elim {s : List Char} (h : specOk s = false) :
    pyInt? s = none ∨ ∃ n : Int, pyInt? s = some n ∧ ¬ 0 < n := by
  unfold specOk at h
  cases hp : pyInt? s with
  | none => exact Or.inl rfl
  | some n =>
    rw [hp] at h
    simp only [decide_eq_false_iff_not] at h
    exact Or.inr ⟨n, rfl, h⟩

namespace TextEmbed

/-- Unfolding of `formatGo` over a prefix whose fields are all valid and in range:
the prefix contributes its substituted text and appends its records, the
rest of the template is processed with the grown record list. -/
theorem formatGo_append (args : List Widget) :
    ∀ (items1 : List TmplItem),
      (∀ j t, TmplItem.field j t ∈ items1 → j < args.length ∧ specOk t = true) →
      ∀ (rest : List TmplItem) (ws : List (Nat × Widget)),
      formatGo args (items1 ++ rest) ws =
        match formatGo args rest (ws ++ recsOf args items1) with
        | .ok (out, ws') => .ok (outOf items1 ++ out, ws')
        | .error e => .error e := by
  intro items1
  induction items1 with
  | nil =>
    intro _ rest ws
    simp only [List.nil_append, recsOf, fieldOccurrences, List.filterMap_nil,
      List.map_nil, List.append_nil, outOf, List.flatten_nil]
    cases formatGo args rest ws with
    | ok r => obtain ⟨out, ws'⟩ := r; rfl
    | error e => rfl
  | cons item items1' ih =>
    intro hvalid rest ws
    cases item with
    | lit s =>
      rw [List.cons_append, formatGo]
      have ihx := ih (fun j t ht => hvalid j t (List.mem_cons_of_mem _ ht)) rest ws
      rw [ihx]
      have houts : outOf (TmplItem.lit s :: items1') = s ++ outOf items1' := by
        simp [outOf]
      have hrecs : recsOf args (TmplItem.lit s :: items1') = recsOf args items1' := by
        simp [recsOf, fieldOccurrences]
      rw [hrecs, houts]
      cases formatGo args rest (ws ++ recsOf args items1') with
      | ok r => obtain ⟨out, ws'⟩ := r; simp
      | error e => rfl
    | field i sp =>
      obtain ⟨hi, hsp⟩ := hvalid i sp (List.mem_cons_self _ _)
      obtain ⟨n, hpn, hn, hwidth⟩ := specOk_elim hsp
      have hget : args[i]? = some (args.getD i ⟨fun _ => []⟩) := by
        rw [List.getElem?_eq_getElem hi, List.getD_eq_getElem args _ hi]
      rw [List.cons_append, formatGo, hget, hpn]
      dsimp only
      rw [if_pos hn]
      have ihx := ih (fun j t ht => hvalid j t (List.mem_cons_of_mem _ ht)) rest
        (ws ++ [(n.toNat, args.getD i ⟨fun _ => []⟩)])
      rw [ihx]
      have hrecs : recsOf args (TmplItem.field i sp :: items1') =
          (n.toNat, args.getD i ⟨fun _ => []⟩) :: recsOf args items1' := by
        simp [recsOf, fieldOccurrences, hwidth]
      have houts : outOf (TmplItem.field i sp :: items1') =
          headRun n.toNat ++ outOf items1' := by
        simp [outOf, hwidth]
      rw [hrecs, houts]
      have hassoc : ws ++ [(n.toNat, args.getD i ⟨fun _ => []⟩)] ++ recsOf args items1' =
          ws ++ (n.toNat, args.getD i ⟨fun _ => []⟩) :: recsOf args items1' := by
        simp
      rw [hassoc]
      cases formatGo args rest (ws ++ (n.toNat, args.getD i ⟨fun _ => []⟩) :: recsOf args items1') with
      | ok r => obtain ⟨out, ws'⟩ := r; simp
      | error e => rfl

/-- Evaluation of `_format` on an all-valid template: the substituted text is the
template with each field replaced by its placeholder sequence, and the
records are the fields' `(width, widget)` pairs in order. -/
theorem format_ok (items : List TmplItem) (args : List Widget)
    (hvalid : ∀ j t, TmplItem.field j t ∈ items → j < args.length ∧ specOk t = true) :
    format items args = .ok (outOf items, recsOf args items) := by
  have := formatGo_append args items hvalid [] []
  simp only [List.append_nil, List.nil_append] at this
  rw [format, this, formatGo]
  simp

/-- Evaluation of `_format` at the first invalid field: it fails, reporting the number of
records appended so far. -/
theorem format_err (items1 : List TmplItem) (i : Nat) (sp : List Char)
    (items2 : List TmplItem) (args : List Widget)
    (hvalid : ∀ j t, TmplItem.field j t ∈ items1 → j < args.length ∧ specOk t = true)
    (hi : i < args.length) (hbad : specOk sp = false) :
    format (items1 ++ TmplItem.field i sp :: items2) args =
      .error (.invalidWidth (fieldOccurrences items1).length) := by
  have happ := formatGo_append args items1 hvalid (TmplItem.field i sp :: items2) []
  rw [format, happ]
  have hget : args[i]? = some (args.getD i ⟨fun _ => []⟩) := by
    rw [List.getElem?_eq_getElem hi, List.getD_eq_getElem args _ hi]
  have hlen : ([] ++ recsOf args items1).length = (fieldOccurrences items1).length := by
    simp [recsOf]
  rw [formatGo, hget]
  cases specOk_false_elim hbad with
  | inl hnone => rw [hnone]; dsimp only; rw [hlen]
  | inr h =>
    obtain ⟨n, hpn, hn⟩ := h
    rw [hpn]
    dsimp only
    rw [if_neg hn, hlen]

end TextEmbed

theorem count_head_headRun (w : Nat) : (headRun w).count headChar = 1 := by
  have hmem : headChar ∉ List.replicate (w - 1) contChar := by
    intro hmem
    have := List.eq_of_mem_replicate hmem
    exact absurd this (by decide)
  simp [headRun, List.count_cons, List.count_eq_zero.mpr hmem]

/-- When the literal template text is free of marker bytes, the head
markers of the substituted text are in bijection with the embedding
points. -/
theorem count_head_outOf :
    ∀ (items : List TmplItem), (∀ s, TmplItem.lit s ∈ items → headChar ∉ s) →
      (outOf items).count headChar = (fieldOccurrences items).length := by
  intro items
  induction items with
  | nil => intro _; simp [outOf, fieldOccurrences]
  | cons it items ih =>
    intro h
    have hx := ih (fun s' hs' => h s' (List.mem_cons_of_mem _ hs'))
    cases it with
    | lit s =>
      have hs : headChar ∉ s := h s (List.mem_cons_self _ _)
      have hout : outOf (TmplItem.lit s :: items) = s ++ outOf items := by simp [outOf]
      have hf : fieldOccurrences (TmplItem.lit s :: items) = fieldOccurrences items := by
        simp [fieldOccurrences]
      rw [hout, hf, List.count_append, List.count_eq_zero.mpr hs, hx]
      omega
    | field i sp =>
      have hout : outOf (TmplItem.field i sp :: items) =
          headRun (specWidth sp) ++ outOf items := by simp [outOf]
      have hf : fieldOccurrences (TmplItem.field i sp :: items) =
          (i, sp) :: fieldOccurrences items := by simp [fieldOccurrences]
      rw [hout, hf, List.count_append, count_head_headRun, List.length_cons, hx]
      omega

/-! ## The claims -/

/-- C1 (split-placeholder invariant): for every widget of declared width
`w` honouring the render contract and every split of its placeholder
into `a` columns on one line and `w - a` on the next (`0 < a < w`), the
embed procedure renders the widget exactly once at width `w`; the first
call emits the leading `a` columns of that render together with a Tail
Descriptor carrying the remaining `w - a` columns of the same canvas;
the next call consumes the tail, emits the remaining columns and
advances no record; and the two partial canvases, horizontally
reconstructed, equal the single unsplit render at width `w`. -/
theorem split_placeholder_reconstruction (w a : Nat) (wid : Widget) (focus : Bool)
    (ha : 0 < a) (haw : a < w) (hr : (wid.render (w, 1)).length = w) :
    TextEmbed.embed (headRun a) [(w, wid)] focus none =
      .ok ((wid.render (w, 1)).take a,
           some (((w : Int) - a, wid.render (w, 1)) : Tail), []) ∧
    TextEmbed.embed (contRun (w - a)) [] focus
        (some (((w : Int) - a, wid.render (w, 1)) : Tail)) =
      .ok ((wid.render (w, 1)).drop a, none, []) ∧
    (wid.render (w, 1)).take a ++ (wid.render (w, 1)).drop a = wid.render (w, 1) :=
  ⟨TextEmbed.embed_split_first a w wid focus ha haw hr,
   TextEmbed.embed_split_second a w (wid.render (w, 1)) [] focus ha haw hr,
   List.take_append_drop a (wid.render (w, 1))⟩

/-- Witness for C1 at `w = 4`, `a = 2`, with the sample widget. -/
theorem split_placeholder_reconstruction_witness :
    0 < 2 ∧ 2 < 4 ∧ (sampleWidget.render (4, 1)).length = 4 ∧
    (TextEmbed.embed (headRun 2) [(4, sampleWidget)] false none =
       .ok ((sampleWidget.render (4, 1)).take 2,
            some ((((4 : Nat) : Int) - (2 : Nat), sampleWidget.render (4, 1)) : Tail), []) ∧
     TextEmbed.embed (contRun (4 - 2)) [] false
         (some ((((4 : Nat) : Int) - (2 : Nat), sampleWidget.render (4, 1)) : Tail)) =
       .ok ((sampleWidget.render (4, 1)).drop 2, none, []) ∧
     (sampleWidget.render (4, 1)).take 2 ++ (sampleWidget.render (4, 1)).drop 2 =
       sampleWidget.render (4, 1)) :=
  ⟨by decide, by decide, by decide,
   split_placeholder_reconstruction 4 2 sampleWidget false (by decide) (by decide) (by decide)⟩

/-- C2: if the substituted text contains more marker runs than there are
embedding records, `_embed` fails fast when the records iterator is
exhausted while a marker run still needs resolution (the spec's
`LayoutError`, raised in the code as `StopIteration` from
`next(widgets_iter)`); it never silently skips the marker. -/
theorem embed_records_exhausted_fails (line : List Char)
    (cursor : List (Nat × Widget)) (focus : Bool)
    (h : cursor.length < markerCount line) :
    TextEmbed.embed line cursor focus none = .error .layoutError :=
  TextEmbed.embed_layoutError line cursor focus h

/-- Witness for C2: two marker runs, one record. -/
theorem embed_records_exhausted_fails_witness :
    ([(1, sampleWidget)] : List (Nat × Widget)).length <
      markerCount [headChar, 'a', headChar] ∧
    TextEmbed.embed [headChar, 'a', headChar] [(1, sampleWidget)] false none =
      .error .layoutError :=
  ⟨by decide,
   embed_records_exhausted_fails [headChar, 'a', headChar] [(1, sampleWidget)] false (by decide)⟩

/-- C7 counterexample: with an active Tail Descriptor and a line whose
leading run of continuation markers is empty, `_embed` does not treat
the tail as consumed and does raise: the `_placeholder_tail` regex
`^( *)(\x01+)` requires at least one continuation byte, so
`re.split` returns the line unsplit and the 4-way unpacking raises a
`ValueError` (modelled as `tailSplitError`). -/
theorem embed_empty_tail_run_raises_cex :
    TextEmbed.embed ['a'] [] false (some (((2 : Int), ['X', 'X']) : Tail)) =
      .error .tailSplitError := rfl

/-- C7 amended: with an active Tail Descriptor, on a line whose leading
run of continuation markers (after any alignment padding spaces) is
empty, the embed procedure raises (the tail split fails); it does not
treat the tail as consumed and does not process the rest of the line. -/
theorem embed_empty_tail_run_errors (line : List Char)
    (cursor : List (Nat × Widget)) (focus : Bool) (cols : Int) (cv : Canvas)
    (h : (line.dropWhile (· = ' ')).takeWhile (· = contChar) = []) :
    TextEmbed.embed line cursor focus (some ((cols, cv) : Tail)) =
      .error .tailSplitError := by
  have hsplit : placeholderTailSplit line = none := by
    simp [placeholderTailSplit, h]
  rw [TextEmbed.embed, hsplit]

/-- Witness for C7 (amended) on a line with no continuation run. -/
theorem embed_empty_tail_run_errors_witness :
    ((['b', 'c'] : List Char).dropWhile (· = ' ')).takeWhile (· = contChar) = [] ∧
    TextEmbed.embed ['b', 'c'] [] false (some (((3 : Int), ['Y', 'Y', 'Y']) : Tail)) =
      .error .tailSplitError :=
  ⟨by decide, embed_empty_tail_run_errors ['b', 'c'] [] false 3 ['Y', 'Y', 'Y'] (by decide)⟩

/-- C8 (idempotence/determinism): `render` mutates no instance state
(the state after a call is the state before it), so calling it twice
with unchanged template, widgets, layout and focus produces identical
results — in particular canvases with identical visible content. -/
theorem render_idempotent (s : TextEmbedState) (textCanv : List Canvas)
    (lines : List (List Char)) (focus : Bool) :
    (TextEmbed.renderState s textCanv lines focus).2 = s ∧
    TextEmbed.renderState (TextEmbed.renderState s textCanv lines focus).2
        textCanv lines focus =
      TextEmbed.renderState s textCanv lines focus :=
  ⟨rfl, rfl⟩

/-- C3 (width validation at format time): (a) a template all of whose
embedding widths are positive integers formats without error; (b) if
some field's width spec is non-numeric, zero or negative (taking the
first such field, the earlier fields being valid and in range), the
format step — run by the constructor and by `set_text`, before any
render is attempted — fails with the error naming the offending
embedding index (the count of records resolved so far). -/
theorem format_width_validation (args : List Widget) :
    (∀ items : List TmplItem,
      (∀ j t, TmplItem.field j t ∈ items → j < args.length ∧ specOk t = true) →
      ∃ r, TextEmbed.format items args = .ok r) ∧
    (∀ (items1 : List TmplItem) (i : Nat) (sp : List Char) (items2 : List TmplItem),
      (∀ j t, TmplItem.field j t ∈ items1 → j < args.length ∧ specOk t = true) →
      i < args.length → specOk sp = false →
      TextEmbed.format (items1 ++ TmplItem.field i sp :: items2) args =
        .error (.invalidWidth (fieldOccurrences items1).length)) :=
  ⟨fun items hv => ⟨(outOf items, recsOf args items), TextEmbed.format_ok items args hv⟩,
   fun items1 i sp items2 hv hi hb => TextEmbed.format_err items1 i sp items2 args hv hi hb⟩

/-- Witness for C3: a valid width formats, a zero width fails naming
embedding index 1 (one record already resolved). -/
theorem format_width_validation_witness :
    (∃ r, TextEmbed.format [TmplItem.lit ['h'], TmplItem.field 0 ['3']] [sampleWidget] =
      .ok r) ∧
    TextEmbed.format [TmplItem.field 0 ['2'], TmplItem.field 0 ['0']] [sampleWidget] =
      .error (.invalidWidth (fieldOccurrences [TmplItem.field 0 ['2']]).length) :=
  ⟨(format_width_validation [sampleWidget]).1 [TmplItem.lit ['h'], TmplItem.field 0 ['3']]
     (by intro j t ht; simp at ht; obtain ⟨rfl, rfl⟩ := ht; exact ⟨by decide, by decide⟩),
   (format_width_validation [sampleWidget]).2 [TmplItem.field 0 ['2']] 0 ['0'] []
     (by intro j t ht; simp at ht; obtain ⟨rfl, rfl⟩ := ht; exact ⟨by decide, by decide⟩)
     (by decide) (by decide)⟩

/-- C4 (non-embedding pass-through): when no decoded line contains a
placeholder marker, every line is batched into one pure-text region and
the composite canvas `render` returns is exactly the plain-text layout
engine's own canvas. -/
theorem render_no_marker_passthrough (textCanv : List Canvas)
    (lines : List (List Char)) (widgets : List (Nat × Widget)) (focus : Bool)
    (hno : ∀ l ∈ lines, TextEmbed.hasHead l = false)
    (hrows : textCanv.length = lines.length) :
    TextEmbed.render textCanv lines widgets focus = .ok textCanv := by
  rw [TextEmbed.render, TextEmbed.renderLoop_noHead textCanv focus lines hno 0 0 widgets []]
  simp only [List.nil_append, trimRows, List.drop_zero, Nat.zero_add]
  rw [List.take_of_length_le (le_of_eq hrows)]

/-- Witness for C4 on a two-line marker-free canvas. -/
theorem render_no_marker_passthrough_witness :
    (∀ l ∈ [['h', 'i'], ['y', 'o']], TextEmbed.hasHead l = false) ∧
    ([['h', 'i'], ['y', 'o']] : List Canvas).length =
      ([['h', 'i'], ['y', 'o']] : List (List Char)).length ∧
    TextEmbed.render [['h', 'i'], ['y', 'o']] [['h', 'i'], ['y', 'o']] [] false =
      .ok [['h', 'i'], ['y', 'o']] :=
  ⟨by decide, by decide,
   render_no_marker_passthrough [['h', 'i'], ['y', 'o']] [['h', 'i'], ['y', 'o']] [] false
     (by decide) (by decide)⟩

/-- C5 (substitution): on a template whose fields are valid and in range
and whose literal text is marker-free, substitution replaces each
embedding point by exactly the placeholder sequence of its declared
width and appends the `(width, widget)` records in order; the
placeholder of width `w` is one head marker followed by `w - 1`
continuation markers, `w` characters in all; the marker characters are
the reserved bytes `0` and `1`, outside the printable alphabet, and
every head marker of the substituted text comes from an embedding
point. -/
theorem format_substitution_spec (items : List TmplItem) (args : List Widget)
    (hvalid : ∀ j t, TmplItem.field j t ∈ items → j < args.length ∧ specOk t = true)
    (hclean : ∀ s, TmplItem.lit s ∈ items → headChar ∉ s) :
    TextEmbed.format items args = .ok (outOf items, recsOf args items) ∧
    (∀ w : Nat, 0 < w →
      headRun w = headChar :: contRun (w - 1) ∧ (headRun w).length = w) ∧
    (outOf items).count headChar = (fieldOccurrences items).length ∧
    headChar.toNat = 0 ∧ contChar.toNat = 1 ∧ headChar ≠ contChar :=
  ⟨TextEmbed.format_ok items args hvalid,
   fun w hw => ⟨rfl, length_headRun w hw⟩,
   count_head_outOf items hclean,
   rfl, rfl, by decide⟩

/-- Witness for C5 on the template `"a{0:2}b"`. -/
theorem format_substitution_spec_witness :
    TextEmbed.format [TmplItem.lit ['a'], TmplItem.field 0 ['2'], TmplItem.lit ['b']]
        [sampleWidget] =
      .ok (outOf [TmplItem.lit ['a'], TmplItem.field 0 ['2'], TmplItem.lit ['b']],
           recsOf [sampleWidget]
             [TmplItem.lit ['a'], TmplItem.field 0 ['2'], TmplItem.lit ['b']]) ∧
    (outOf [TmplItem.lit ['a'], TmplItem.field 0 ['2'], TmplItem.lit ['b']]).count headChar =
      (fieldOccurrences [TmplItem.lit ['a'], TmplItem.field 0 ['2'], TmplItem.lit ['b']]).length :=
  ⟨(format_substitution_spec [TmplItem.lit ['a'], TmplItem.field 0 ['2'], TmplItem.lit ['b']]
      [sampleWidget]
      (by intro j t ht; simp at ht; obtain ⟨rfl, rfl⟩ := ht; exact ⟨by decide, by decide⟩)
      (by intro s hs; simp at hs; rcases hs with rfl | rfl <;> decide)).1,
   (format_substitution_spec [TmplItem.lit ['a'], TmplItem.field 0 ['2'], TmplItem.lit ['b']]
      [sampleWidget]
      (by intro j t ht; simp at ht; obtain ⟨rfl, rfl⟩ := ht; exact ⟨by decide, by decide⟩)
      (by intro s hs; simp at hs; rcases hs with rfl | rfl <;> decide)).2.2.1⟩

/-- C6 (truncated tail accepted): when a Tail Descriptor is still pending
as the decoded line sequence is exhausted (wrapping truncated the
display, e.g. under clip/ellipsis wrap), `render` returns normally: the
inner loop's `StopIteration` is caught and breaks, the remainder is
silently dropped, and the canvases already accumulated are still
combined. In particular a single line ending in the leading `a` columns
of a width-`w` placeholder renders to just those `a` columns. -/
theorem render_pending_tail_truncation :
    (∀ (textCanv : List Canvas) (focus : Bool) (top : Nat) (t : Tail)
       (cursor : List (Nat × Widget)) (acc : List Canvas),
      TextEmbed.renderLoop textCanv focus [] top 0 (some t) cursor acc = .ok acc) ∧
    (∀ (textCanv : List Canvas) (w a : Nat) (wid : Widget) (focus : Bool),
      0 < a → a < w → (wid.render (w, 1)).length = w →
      TextEmbed.render textCanv [headRun a] [(w, wid)] focus =
        .ok [(wid.render (w, 1)).take a]) := by
  refine ⟨TextEmbed.renderLoop_nil_tail, ?_⟩
  intro tc w a wid focus ha haw hr
  rw [TextEmbed.render, TextEmbed.renderLoop]
  rw [TextEmbed.hasHead_headRun]
  simp only [if_true]
  rw [TextEmbed.embed_split_first a w wid focus ha haw hr]
  dsimp only
  rw [TextEmbed.renderLoop_nil_tail]
  simp [trimRows]

/-- Witness for C6 at `w = 3`, `a = 1`. -/
theorem render_pending_tail_truncation_witness :
    TextEmbed.renderLoop [] false [] 5 0 (some ((2, ['X', 'X', 'X']) : Tail)) [] [['q']] =
      .ok [['q']] ∧
    (0 < 1 ∧ 1 < 3 ∧ (sampleWidget.render (3, 1)).length = 3 ∧
     TextEmbed.render [[headChar]] [headRun 1] [(3, sampleWidget)] false =
       .ok [(sampleWidget.render (3, 1)).take 1]) :=
  ⟨render_pending_tail_truncation.1 [] false 5 ((2, ['X', 'X', 'X']) : Tail) [] [['q']],
   by decide, by decide, by decide,
   render_pending_tail_truncation.2 [[headChar]] 3 1 sampleWidget false
     (by decide) (by decide) (by decide)⟩

/-- C9 (records consumed exactly once, in order): during a render pass,
a fresh line consumes exactly one record per placeholder head marker, in
list order (the returned cursor is the input cursor with that many
records dropped); a marker run of on-line length `a` against a record of
declared width `w` renders its widget at exactly `(w, 1)` even when the
run is shorter than `w` (split placeholder), carrying the same rendered
canvas in the Tail Descriptor; and consuming a tail on a later line
reuses the stored canvas and returns the cursor untouched, re-invoking
no widget. -/
theorem records_consumed_once_in_order :
    (∀ (line : List Char) (cursor : List (Nat × Widget)) (focus : Bool),
      markerCount line ≤ cursor.length →
      ∃ c t, TextEmbed.embed line cursor focus none =
        .ok (c, t, cursor.drop (markerCount line))) ∧
    (∀ (a w : Nat) (wid : Widget) (cs : List (Nat × Widget)) (focus : Bool),
      0 < a →
      TextEmbed.embed (headRun a) ((w, wid) :: cs) focus none =
        .ok (fitCols a (wid.render (w, 1)),
             if a = w then none else some (((w : Int) - a, wid.render (w, 1)) : Tail),
             cs)) ∧
    (∀ (k : Nat) (cols : Int) (cv : Canvas) (cursor : List (Nat × Widget)) (focus : Bool),
      0 < k →
      TextEmbed.embed (contRun k) cursor focus (some ((cols, cv) : Tail)) =
        .ok (fitCols cols.toNat
               (padTrimLeftRight (cols - (cv.length : Int)) ((k : Int) - cols) cv),
             if (k : Int) < cols then some ((cols - (k : Int), cv) : Tail) else none,
             cursor)) :=
  ⟨fun line cursor focus h => TextEmbed.embed_ok_drop line cursor focus h,
   fun a w wid cs focus ha => TextEmbed.embed_headRun a w wid cs focus ha,
   fun k cols cv cursor focus hk => TextEmbed.embed_contRun_tail k cols cv cursor focus hk⟩

/-- Witness for C9: one marker and one text run against two records; a
split head run; a tail line with a non-empty cursor left untouched. -/
theorem records_consumed_once_in_order_witness :
    (markerCount ['x', headChar] ≤
       ([(2, sampleWidget), (5, sampleWidget)] : List (Nat × Widget)).length ∧
     ∃ c t, TextEmbed.embed ['x', headChar] [(2, sampleWidget), (5, sampleWidget)] false none =
       .ok (c, t,
            ([(2, sampleWidget), (5, sampleWidget)] : List (Nat × Widget)).drop
              (markerCount ['x', headChar]))) ∧
    TextEmbed.embed (headRun 1) [(3, sampleWidget)] false none =
      .ok (fitCols 1 (sampleWidget.render (3, 1)),
           if 1 = 3 then none
           else some ((((3 : Nat) : Int) - (1 : Nat), sampleWidget.render (3, 1)) : Tail),
           []) ∧
    TextEmbed.embed (contRun 2) [(7, sampleWidget)] false
        (some (((2 : Int), ['X', 'X', 'X']) : Tail)) =
      .ok (fitCols (2 : Int).toNat
             (padTrimLeftRight ((2 : Int) - ((['X', 'X', 'X'] : Canvas).length : Int))
               (((2 : Nat) : Int) - (2 : Int)) ['X', 'X', 'X']),
           if ((2 : Nat) : Int) < (2 : Int)
           then some (((2 : Int) - ((2 : Nat) : Int), ['X', 'X', 'X']) : Tail) else none,
           [(7, sampleWidget)]) :=
  ⟨⟨by decide,
    records_consumed_once_in_order.1 ['x', headChar]
      [(2, sampleWidget), (5, sampleWidget)] false (by decide)⟩,
   records_consumed_once_in_order.2.1 1 3 sampleWidget [] false (by decide),
   records_consumed_once_in_order.2.2 2 2 ['X', 'X', 'X'] [(7, sampleWidget)] false (by decide)⟩

/-- C10 (partial update on failing `set_text`): `set_text` assigns
`self._text` before running the fallible `_format`, so when the width
validation fails the raw-template `text` property already returns the
new template while the embedding records and the wrapped text widget's
substituted text — and hence the content of subsequent renders — still
reflect the previous successful call. -/
theorem set_text_partial_update_on_error (s : TextEmbedState)
    (tmpl : List TmplItem) (args : List Widget) (e : FmtError)
    (h : TextEmbed.format tmpl args = .error e) :
    (TextEmbed.set_text s tmpl args).1.text = tmpl ∧
    (TextEmbed.set_text s tmpl args).1.widgets = s.widgets ∧
    (TextEmbed.set_text s tmpl args).1.wtext = s.wtext ∧
    (TextEmbed.set_text s tmpl args).2 = some e ∧
    ∀ (textCanv : List Canvas) (lines : List (List Char)) (focus : Bool),
      (TextEmbed.renderState (TextEmbed.set_text s tmpl args).1 textCanv lines focus).1 =
        (TextEmbed.renderState s textCanv lines focus).1 := by
  rw [TextEmbed.set_text, h]
  exact ⟨rfl, rfl, rfl, rfl, fun _ _ _ => rfl⟩

/-- Witness for C10: an empty (hence non-numeric) width spec fails and
leaves the previous records and substituted text in place. -/
theorem set_text_partial_update_on_error_witness :
    TextEmbed.format [TmplItem.field 0 []] [sampleWidget] = .error (.invalidWidth 0) ∧
    ((TextEmbed.set_text
        (⟨[TmplItem.lit ['o']], [(2, sampleWidget)], ['o', 'l', 'd']⟩ : TextEmbedState)
        [TmplItem.field 0 []] [sampleWidget]).1.text = [TmplItem.field 0 []] ∧
     (TextEmbed.set_text
        (⟨[TmplItem.lit ['o']], [(2, sampleWidget)], ['o', 'l', 'd']⟩ : TextEmbedState)
        [TmplItem.field 0 []] [sampleWidget]).1.widgets =
       (⟨[TmplItem.lit ['o']], [(2, sampleWidget)], ['o', 'l', 'd']⟩ : TextEmbedState).widgets ∧
     (TextEmbed.set_text
        (⟨[TmplItem.lit ['o']], [(2, sampleWidget)], ['o', 'l', 'd']⟩ : TextEmbedState)
        [TmplItem.field 0 []] [sampleWidget]).1.wtext =
       (⟨[TmplItem.lit ['o']], [(2, sampleWidget)], ['o', 'l', 'd']⟩ : TextEmbedState).wtext ∧
     (TextEmbed.set_text
        (⟨[TmplItem.lit ['o']], [(2, sampleWidget)], ['o', 'l', 'd']⟩ : TextEmbedState)
        [TmplItem.field 0 []] [sampleWidget]).2 = some (.invalidWidth 0) ∧
     ∀ (textCanv : List Canvas) (lines : List (List Char)) (focus : Bool),
       (TextEmbed.renderState
          (TextEmbed.set_text
            (⟨[TmplItem.lit ['o']], [(2, sampleWidget)], ['o', 'l', 'd']⟩ : TextEmbedState)
            [TmplItem.field 0 []] [sampleWidget]).1 textCanv lines focus).1 =
         (TextEmbed.renderState
            (⟨[TmplItem.lit ['o']], [(2, sampleWidget)], ['o', 'l', 'd']⟩ : TextEmbedState)
            textCanv lines focus).1) :=
  ⟨rfl,
   set_text_partial_update_on_error
     (⟨[TmplItem.lit ['o']], [(2, sampleWidget)], ['o', 'l', 'd']⟩ : TextEmbedState)
     [TmplItem.field 0 []] [sampleWidget] (.invalidWidth 0) rfl⟩

end TootWidgets
